import Mathlib

set_option allowUnsafeReducibility true
attribute [local semireducible] Rat.add Rat.mul Rat.div Rat.inv Rat.sub Rat.neg Rat.normalize Rat.ofScientific

/-!
# Verification of the cadastral ingestion/normalization core

Shallow embedding of the geometry ingestion and coordinate-normalization
pipeline of the cadastral repository (`src/app/api/cadastral-data/route.ts`,
lines 836-1382, and the identical `mapFieldNames` copy in
`src/app/api/upload-cadastral-data/route.ts`).

Modelling conventions:
* JavaScript values reaching the field mapper are modelled by the closed sum
  `JsVal` (`null` stands for both JS `null` and `undefined`: the code treats
  the two alike everywhere it can see them).
* JS numbers are modelled as exact rationals `ℚ`; IEEE-754 rounding is not
  modelled and no claim below depends on it.
* Fallible JS code (statements that can throw `TypeError`) is modelled with
  `Option`/`Except`; `none`/`.error` is a thrown exception.
* The builtins `JSON.parse`, `parseFloat`, `String.prototype.replace` with the
  regex `[^\d.-]`, and `new Date`/`toISOString` are modelled explicitly below;
  each model carries a comment stating its scope.
-/

namespace Cadastral

/-- The closed sum of JavaScript values that can reach the ingestion core
(JSON-representable values).  `null` models both JS `null` and `undefined`. -/
inductive JsVal where
  | null : JsVal
  | str (s : String) : JsVal
  | num (q : ℚ) : JsVal
  | bool (b : Bool) : JsVal
  | arr (elems : List JsVal) : JsVal
  | obj (fields : List (String × JsVal)) : JsVal

mutual

/-- Decidable equality on `JsVal` (written by hand: the nested inductive has no
derived handler). -/
def JsVal.decEq : (a b : JsVal) → Decidable (a = b)
  | .null, .null => isTrue rfl
  | .null, .str _ => isFalse (fun h => nomatch h)
  | .null, .num _ => isFalse (fun h => nomatch h)
  | .null, .bool _ => isFalse (fun h => nomatch h)
  | .null, .arr _ => isFalse (fun h => nomatch h)
  | .null, .obj _ => isFalse (fun h => nomatch h)
  | .str _, .null => isFalse (fun h => nomatch h)
  | .str a, .str b =>
    if h : a = b then isTrue (by rw [h]) else isFalse (fun e => h (JsVal.str.inj e))
  | .str _, .num _ => isFalse (fun h => nomatch h)
  | .str _, .bool _ => isFalse (fun h => nomatch h)
  | .str _, .arr _ => isFalse (fun h => nomatch h)
  | .str _, .obj _ => isFalse (fun h => nomatch h)
  | .num _, .null => isFalse (fun h => nomatch h)
  | .num _, .str _ => isFalse (fun h => nomatch h)
  | .num a, .num b =>
    if h : a = b then isTrue (by rw [h]) else isFalse (fun e => h (JsVal.num.inj e))
  | .num _, .bool _ => isFalse (fun h => nomatch h)
  | .num _, .arr _ => isFalse (fun h => nomatch h)
  | .num _, .obj _ => isFalse (fun h => nomatch h)
  | .bool _, .null => isFalse (fun h => nomatch h)
  | .bool _, .str _ => isFalse (fun h => nomatch h)
  | .bool _, .num _ => isFalse (fun h => nomatch h)
  | .bool a, .bool b =>
    if h : a = b then isTrue (by rw [h]) else isFalse (fun e => h (JsVal.bool.inj e))
  | .bool _, .arr _ => isFalse (fun h => nomatch h)
  | .bool _, .obj _ => isFalse (fun h => nomatch h)
  | .arr _, .null => isFalse (fun h => nomatch h)
  | .arr _, .str _ => isFalse (fun h => nomatch h)
  | .arr _, .num _ => isFalse (fun h => nomatch h)
  | .arr _, .bool _ => isFalse (fun h => nomatch h)
  | .arr xs, .arr ys =>
    match JsVal.decEqList xs ys with
    | isTrue h => isTrue (by rw [h])
    | isFalse h => isFalse (fun e => h (JsVal.arr.inj e))
  | .arr _, .obj _ => isFalse (fun h => nomatch h)
  | .obj _, .null => isFalse (fun h => nomatch h)
  | .obj _, .str _ => isFalse (fun h => nomatch h)
  | .obj _, .num _ => isFalse (fun h => nomatch h)
  | .obj _, .bool _ => isFalse (fun h => nomatch h)
  | .obj _, .arr _ => isFalse (fun h => nomatch h)
  | .obj fs, .obj gs =>
    match JsVal.decEqFields fs gs with
    | isTrue h => isTrue (by rw [h])
    | isFalse h => isFalse (fun e => h (JsVal.obj.inj e))

/-- Decidable equality on lists of `JsVal`. -/
def JsVal.decEqList : (xs ys : List JsVal) → Decidable (xs = ys)
  | [], [] => isTrue rfl
  | [], _ :: _ => isFalse (fun h => nomatch h)
  | _ :: _, [] => isFalse (fun h => nomatch h)
  | x :: xs, y :: ys =>
    match JsVal.decEq x y, JsVal.decEqList xs ys with
    | isTrue h1, isTrue h2 => isTrue (by rw [h1, h2])
    | isFalse h1, _ => isFalse (fun e => h1 (List.cons.inj e).1)
    | _, isFalse h2 => isFalse (fun e => h2 (List.cons.inj e).2)

/-- Decidable equality on string-keyed fields of `JsVal`. -/
def JsVal.decEqFields : (xs ys : List (String × JsVal)) → Decidable (xs = ys)
  | [], [] => isTrue rfl
  | [], _ :: _ => isFalse (fun h => nomatch h)
  | _ :: _, [] => isFalse (fun h => nomatch h)
  | (k, v) :: xs, (l, w) :: ys =>
    match instDecidableEqString k l, JsVal.decEq v w, JsVal.decEqFields xs ys with
    | isTrue h0, isTrue h1, isTrue h2 => isTrue (by rw [h0, h1, h2])
    | isFalse h0, _, _ => isFalse (fun e => h0 (congrArg Prod.fst (List.cons.inj e).1))
    | _, isFalse h1, _ => isFalse (fun e => h1 (congrArg Prod.snd (List.cons.inj e).1))
    | _, _, isFalse h2 => isFalse (fun e => h2 (List.cons.inj e).2)

end

instance : DecidableEq JsVal := JsVal.decEq

/-- Strict equality of a value with a given string literal (JS `value === 'lit'`). -/
def JsVal.isLit (v : JsVal) (lit : String) : Bool :=
  match v with
  | .str s => s == lit
  | _ => false

/-- Is the value the JS `null`/`undefined` of the model? -/
def JsVal.isNull : JsVal → Bool
  | .null => true
  | _ => false

/-- JS truthiness on the modelled values (NaN does not occur: the code nulls
it out before storing, and JSON cannot encode it). -/
def jsTruthy : JsVal → Bool
  | .null => false
  | .str s => decide (s ≠ "")
  | .num q => decide (q ≠ 0)
  | .bool b => b
  | .arr _ => true
  | .obj _ => true

/-- JS `a || b` on modelled values. -/
def jsOr (a b : JsVal) : JsVal := if jsTruthy a then a else b

/-- Is the value a JS array? (`Array.isArray`). -/
def JsVal.isArr : JsVal → Bool
  | .arr _ => true
  | _ => false

/-- Numeric value of a list of decimal digit characters. -/
def digitsToNat (ds : List Char) : Nat :=
  ds.foldl (fun a c => 10 * a + (c.toNat - 48)) 0

/-- JSON whitespace. -/
def isJsonWs (c : Char) : Bool := c = ' ' ∨ c = '\t' ∨ c = '\n' ∨ c = '\r'

/-- Drop leading JSON whitespace. -/
def skipWs (cs : List Char) : List Char := cs.dropWhile isJsonWs

/-- Hex digit value, for `\uXXXX` escapes. -/
def hexVal? (c : Char) : Option Nat :=
  if '0' ≤ c ∧ c ≤ '9' then some (c.toNat - 48)
  else if 'a' ≤ c ∧ c ≤ 'f' then some (c.toNat - 87)
  else if 'A' ≤ c ∧ c ≤ 'F' then some (c.toNat - 55)
  else none

/-- Body of a JSON string literal (after the opening quote): returns the decoded
characters and the input remaining after the closing quote.  Fuel-driven so the
definition is structural and kernel-reducible. -/
def parseStringBody : Nat → List Char → Option (List Char × List Char)
  | 0, _ => none
  | _ + 1, [] => none
  | _ + 1, '"' :: rest => some ([], rest)
  | fuel + 1, '\\' :: rest =>
    match rest with
    | '"' :: r => (parseStringBody fuel r).map (fun p => ('"' :: p.1, p.2))
    | '\\' :: r => (parseStringBody fuel r).map (fun p => ('\\' :: p.1, p.2))
    | '/' :: r => (parseStringBody fuel r).map (fun p => ('/' :: p.1, p.2))
    | 'b' :: r => (parseStringBody fuel r).map (fun p => (Char.ofNat 8 :: p.1, p.2))
    | 'f' :: r => (parseStringBody fuel r).map (fun p => (Char.ofNat 12 :: p.1, p.2))
    | 'n' :: r => (parseStringBody fuel r).map (fun p => ('\n' :: p.1, p.2))
    | 'r' :: r => (parseStringBody fuel r).map (fun p => (Char.ofNat 13 :: p.1, p.2))
    | 't' :: r => (parseStringBody fuel r).map (fun p => ('\t' :: p.1, p.2))
    | 'u' :: h1 :: h2 :: h3 :: h4 :: r =>
      match hexVal? h1, hexVal? h2, hexVal? h3, hexVal? h4 with
      | some a, some b, some c, some d =>
        (parseStringBody fuel r).map
          (fun p => (Char.ofNat (((a * 16 + b) * 16 + c) * 16 + d) :: p.1, p.2))
      | _, _, _, _ => none
    | _ => none
  | fuel + 1, c :: rest =>
    if c.toNat < 32 then none
    else (parseStringBody fuel rest).map (fun p => (c :: p.1, p.2))

/-- A JSON number per the strict JSON grammar (`JSON.parse` rejects `+5`,
`.5`, `05`, `5.`): returns its exact rational value and the remaining input. -/
def parseNumber (cs : List Char) : Option (ℚ × List Char) :=
  let sgn : Bool × List Char := match cs with
    | '-' :: r => (true, r)
    | _ => (false, cs)
  let intPart : Option (Nat × List Char) := match sgn.2 with
    | '0' :: r => some (0, r)
    | c :: _ =>
      if c.isDigit then
        some (digitsToNat (sgn.2.takeWhile Char.isDigit), sgn.2.dropWhile Char.isDigit)
      else none
    | [] => none
  match intPart with
  | none => none
  | some (ip, cs₂) =>
    let fracPart : Option (Nat × Nat × List Char) := match cs₂ with
      | '.' :: r =>
        let fd := r.takeWhile Char.isDigit
        if fd.isEmpty then none else some (digitsToNat fd, fd.length, r.dropWhile Char.isDigit)
      | _ => some (0, 0, cs₂)
    match fracPart with
    | none => none
    | some (fv, fl, cs₃) =>
      let expPart : Option (Int × List Char) := match cs₃ with
        | e :: r =>
          if e = 'e' ∨ e = 'E' then
            let se : Int × List Char := match r with
              | '+' :: r2 => (1, r2)
              | '-' :: r2 => (-1, r2)
              | _ => (1, r)
            let ed := se.2.takeWhile Char.isDigit
            if ed.isEmpty then none
            else some (se.1 * (digitsToNat ed : Int), se.2.dropWhile Char.isDigit)
          else some (0, cs₃)
        | [] => some (0, cs₃)
      match expPart with
      | none => none
      | some (ex, cs₄) =>
        let mag : ℚ := ((ip : ℚ) + (fv : ℚ) / (10 : ℚ) ^ fl) * (10 : ℚ) ^ ex
        some (if sgn.1 then -mag else mag, cs₄)

/-- Parsing mode for the single-function JSON parser (kept as one function so
that the recursion is structural on the fuel and kernel-reducible). -/
inductive JsonMode where
  | value
  | elems (acc : List JsVal)
  | members (acc : List (String × JsVal))

/-- Result of one `parseJson` step. -/
inductive JsonOut where
  | val (v : JsVal)
  | elems (vs : List JsVal)
  | members (ms : List (String × JsVal))

/-- Recursive-descent JSON parser (model of the `JSON.parse` builtin).
`value` mode parses one JSON value; `elems` parses the remainder of an array
after `[` (or after a comma); `members` likewise for objects. -/
def parseJson : Nat → JsonMode → List Char → Option (JsonOut × List Char)
  | 0, _, _ => none
  | fuel + 1, .value, cs =>
    match skipWs cs with
    | 'n' :: 'u' :: 'l' :: 'l' :: rest => some (.val .null, rest)
    | 't' :: 'r' :: 'u' :: 'e' :: rest => some (.val (.bool true), rest)
    | 'f' :: 'a' :: 'l' :: 's' :: 'e' :: rest => some (.val (.bool false), rest)
    | '"' :: rest =>
      match parseStringBody (rest.length + 1) rest with
      | some (body, rest₂) => some (.val (.str (String.mk body)), rest₂)
      | none => none
    | '[' :: rest =>
      (match skipWs rest with
       | ']' :: rest₂ => some (.val (.arr []), rest₂)
       | _ =>
         match parseJson fuel (.elems []) rest with
         | some (.elems vs, rest₂) => some (.val (.arr vs), rest₂)
         | _ => none)
    | '{' :: rest =>
      (match skipWs rest with
       | '}' :: rest₂ => some (.val (.obj []), rest₂)
       | _ =>
         match parseJson fuel (.members []) rest with
         | some (.members ms, rest₂) => some (.val (.obj ms), rest₂)
         | _ => none)
    | other =>
      match parseNumber other with
      | some (q, rest) => some (.val (.num q), rest)
      | none => none
  | fuel + 1, .elems acc, cs =>
    (match parseJson fuel .value cs with
     | some (.val v, rest) =>
       (match skipWs rest with
        | ',' :: rest₂ => parseJson fuel (.elems (acc ++ [v])) rest₂
        | ']' :: rest₂ => some (.elems (acc ++ [v]), rest₂)
        | _ => none)
     | _ => none)
  | fuel + 1, .members acc, cs =>
    (match skipWs cs with
     | '"' :: rest =>
       (match parseStringBody (rest.length + 1) rest with
        | some (key, rest₂) =>
          (match skipWs rest₂ with
           | ':' :: rest₃ =>
             (match parseJson fuel .value rest₃ with
              | some (.val v, rest₄) =>
                (match skipWs rest₄ with
                 | ',' :: rest₅ => parseJson fuel (.members (acc ++ [(String.mk key, v)])) rest₅
                 | '}' :: rest₅ => some (.members (acc ++ [(String.mk key, v)]), rest₅)
                 | _ => none)
              | _ => none)
           | _ => none)
        | none => none)
     | _ => none)

/-- Model of the `JSON.parse` builtin: parses the whole string (allowing
trailing whitespace) or fails, as `JSON.parse` throws `SyntaxError`. -/
def jsonParse (s : String) : Option JsVal :=
  match parseJson (2 * s.length + 2) .value s.data with
  | some (.val v, rest) => if skipWs rest = [] then some v else none
  | _ => none

/-! ## Field Mapper (`mapFieldNames`)

`src/app/api/cadastral-data/route.ts` lines 869-985; the copy in
`src/app/api/upload-cadastral-data/route.ts` lines 38-154 is character-for-
character identical, so one embedding serves both.  A JS property bag is
modelled as an association list in `Object.keys` (insertion) order. -/

/-- The `fieldMap` lookup table, verbatim from the source. -/
def fieldMap : List (String × String) := [
  ("PROPINSI", "provinsi"), ("PROVINSI", "provinsi"),
  ("KABUPATEN", "kabupaten"), ("KECAMATAN", "kecamatan"),
  ("DESA", "desa"), ("KELURAHAN", "desa"),
  ("NIB", "nib"), ("SU", "su"), ("HAK", "hak"),
  ("TIPEHAK", "tipe_hak"), ("TIPE_HAK", "tipe_hak"),
  ("LUASTERTUL", "luas_tertulis"), ("LUAS_TERTUL", "luas_tertulis"),
  ("LUAS_TERTULIS", "luas_tertulis"),
  ("LUASPETA", "luas_peta"), ("LUAS_PETA", "luas_peta"), ("area_sqm", "luas_peta"),
  ("SK", "sk"), ("TANGGALSK", "tanggal_sk"), ("TANGGAL_SK", "tanggal_sk"),
  ("TGLTERBITH", "tanggal_terbit_hak"), ("TANGGAL_TERBIT_HAK", "tanggal_terbit_hak"),
  ("BERAKHIRHA", "berakhir_hak"), ("BERAKHIR_HAK", "berakhir_hak"),
  ("PEMILIK", "pemilik"), ("owner_name", "pemilik"),
  ("TIPEPEMILI", "tipe_pemilik"), ("TIPE_PEMILIK", "tipe_pemilik"),
  ("GUNATANAHK", "guna_tanah_klasifikasi"), ("GUNA_TANAH_KLASIFIKASI", "guna_tanah_klasifikasi"),
  ("GUNATANAHU", "guna_tanah_utama"), ("GUNA_TANAH_UTAMA", "guna_tanah_utama"),
  ("land_use", "penggunaan"), ("PENGGUNAAN", "penggunaan"),
  ("TERPETAKAN", "terpetakan"),
  ("Kasus", "kasus"), ("KASUS", "kasus"),
  ("Pihak", "pihak_bersengketa"), ("PIHAK_BERSENGKETA", "pihak_bersengketa"),
  ("Solusi", "solusi"), ("SOLUSI", "solusi"),
  ("Hasil", "hasil"), ("HASIL", "hasil"),
  ("UPAYA_PENANGANAN", "upaya_penanganan"),
  ("Keterangan", "keterangan"), ("KETERANGAN", "keterangan"),
  ("NoPeta", "no_peta"), ("NO_PETA", "no_peta"),
  ("Status", "status"), ("STATUS", "status"), ("status", "status")]

/-- ASCII lower-casing of one character. -/
def charLower (c : Char) : Char :=
  if 'A' ≤ c ∧ c ≤ 'Z' then Char.ofNat (c.toNat + 32) else c

/-- Model of JS `String.prototype.toLowerCase` (they agree on ASCII, which is
all the lookup table and the canonical field names use). -/
def toLowerAscii (s : String) : String := ⟨s.data.map charLower⟩

/-- `fieldMap[key] || key.toLowerCase()` (every table value is a nonempty,
hence truthy, string). -/
def resolveKey (k : String) : String :=
  (fieldMap.lookup k).getD (toLowerAscii k)

/-- The strip `value.replace(/[^\d.-]/g, '')`: keep only decimal digits,
dots and minus signs. -/
def stripNonNumeric (s : String) : String :=
  ⟨s.data.filter (fun c => c.isDigit ∨ c = '.' ∨ c = '-')⟩

/-- Model of the JS `parseFloat` builtin on the stripped strings it is applied
to (which consist only of digits, dots and minus signs, so no exponent or
whitespace handling is needed): the longest prefix of the form
`-? (digits (. digits*)? | . digits+)` is parsed; if it is empty the result is
`NaN`, modelled as `none`. -/
def parseFloatJs (s : String) : Option ℚ :=
  let sgn : Bool × List Char := match s.data with
    | '-' :: r => (true, r)
    | _ => (false, s.data)
  let ip := sgn.2.takeWhile Char.isDigit
  let rest := sgn.2.dropWhile Char.isDigit
  let fd : List Char := match rest with
    | '.' :: r => r.takeWhile Char.isDigit
    | _ => []
  if ip.isEmpty ∧ fd.isEmpty then none
  else
    some ((if sgn.1 then -1 else 1) *
      ((digitsToNat ip : ℚ) + (digitsToNat fd : ℚ) / (10 : ℚ) ^ fd.length))

/-- Gregorian leap year. -/
def isLeapYear (y : Nat) : Bool := (y % 4 = 0 ∧ y % 100 ≠ 0) ∨ y % 400 = 0

/-- Days in a month. -/
def daysInMonth (y m : Nat) : Nat :=
  if m = 2 then (if isLeapYear y then 29 else 28)
  else if m = 4 ∨ m = 6 ∨ m = 9 ∨ m = 11 then 30
  else 31

/-- Does the string have the ISO calendar-date form `YYYY-MM-DD` with an
in-range month and day? -/
def isIsoDate (s : String) : Bool :=
  match s.data with
  | [y1, y2, y3, y4, '-', m1, m2, '-', d1, d2] =>
    if y1.isDigit && y2.isDigit && y3.isDigit && y4.isDigit &&
       m1.isDigit && m2.isDigit && d1.isDigit && d2.isDigit then
      let y := digitsToNat [y1, y2, y3, y4]
      let m := digitsToNat [m1, m2]
      let d := digitsToNat [d1, d2]
      decide (1 ≤ m ∧ m ≤ 12 ∧ 1 ≤ d ∧ d ≤ daysInMonth y m)
    else false
  | _ => false

/-- Model of the JS date round-trip
`new Date(value)` + `isNaN(getTime())` check + `toISOString().split('T')[0]`,
restricted to string inputs already in ISO `YYYY-MM-DD` form, on which the
round-trip is the identity (`new Date` reads them as UTC midnight and
`toISOString` prints them back).  Other JS-parseable date representations are
outside the model and treated as invalid; no claim below depends on them, and
every date value the mapper itself emits is in ISO form, which the model
covers exactly. -/
def jsDateToIso : JsVal → Option String
  | .str s => if isIsoDate s then some s else none
  | _ => none

/-- The `pihak_bersengketa` special case of `mapFieldNames`
(route.ts lines 944-956). -/
def coercePihak (mappedKey : String) (value : JsVal) : JsVal :=
  if mappedKey = "pihak_bersengketa" then
    match value with
    | .str s =>
      if s = "[]" ∨ s = "" ∨ s = "-" then .arr []
      else
        match jsonParse s with
        | some j => j
        | none => if jsTruthy (.str s) then .arr [.str s] else .arr []
    | .arr a => .arr a
    | _ => .arr []
  else value

/-- The area-field special case of `mapFieldNames` (route.ts lines 959-964). -/
def coerceArea (mappedKey : String) (value : JsVal) : JsVal :=
  if (mappedKey = "luas_tertulis" ∨ mappedKey = "luas_peta") ∧ jsTruthy value then
    match value with
    | .str s =>
      match parseFloatJs (stripNonNumeric s) with
      | some q => .num q
      | none => .null
    | _ => value
  else value

/-- The date fields of `mapFieldNames`. -/
def dateFields : List String := ["tanggal_sk", "tanggal_terbit_hak", "berakhir_hak"]

/-- The date-field special case of `mapFieldNames` (route.ts lines 967-974). -/
def coerceDate (mappedKey : String) (value : JsVal) : JsVal :=
  if mappedKey ∈ dateFields ∧ jsTruthy value then
    if value.isLit "-" ∨ value.isLit "" then .null
    else
      match jsDateToIso value with
      | some iso => .str iso
      | none => .null
  else value

/-- The final `// Clean empty values` step (route.ts lines 977-979). -/
def cleanEmpty (value : JsVal) : JsVal :=
  if value.isLit "" ∨ value.isLit "-" ∨ value.isNull then .null else value

/-- The whole per-key value pipeline of `mapFieldNames` in source order. -/
def coerceValue (mappedKey : String) (value : JsVal) : JsVal :=
  cleanEmpty (coerceDate mappedKey (coerceArea mappedKey (coercePihak mappedKey value)))

/-- JS property assignment `o[k] = v`: overwrite in place if the key exists,
otherwise append (JS objects keep the original position of an updated key). -/
def jsSet (o : List (String × JsVal)) (k : String) (v : JsVal) : List (String × JsVal) :=
  if (o.lookup k).isSome then
    o.map (fun kv => if kv.1 = k then (k, v) else kv)
  else o ++ [(k, v)]

/-- `mapFieldNames` (route.ts lines 869-985): resolve each key through the
lookup table (falling back to its lower-cased form), apply the special-case
coercions, and assign into the `mapped` object. -/
def mapFieldNames (properties : List (String × JsVal)) : List (String × JsVal) :=
  properties.foldl
    (fun mapped kv => jsSet mapped (resolveKey kv.1) (coerceValue (resolveKey kv.1) kv.2))
    []

/-! ## Geometry Normalizer (`normalizeGeometry`)

`src/app/api/cadastral-data/route.ts` lines 988-1091.  Coordinates are exact
rationals.  The untyped GeoJSON geometry objects are embedded as well-formed
values: the `type` tag determines the nesting of `coordinates` (which every
claim presupposes).  A thrown `TypeError` (indexing into `undefined`) is
modelled as `none`. -/

/-- A coordinate pair `[x, y]`. -/
abbrev Coord := ℚ × ℚ

/-- A linear ring: a list of coordinate pairs. -/
abbrev Ring := List Coord

/-- GeoJSON geometry as the code can receive it.  `null` is a JS
`null`/`undefined` geometry; `noCoords` is a geometry object whose
`coordinates` field is absent or `null` (falsy); `other` is any type other
than Polygon/MultiPolygon (e.g. `"LineString"`) with a (truthy) coordinates
array. -/
inductive Geometry where
  | null : Geometry
  | noCoords (type : String) : Geometry
  | polygon (coordinates : List Ring) : Geometry
  | multiPolygon (coordinates : List (List Ring)) : Geometry
  | other (type : String) (coordinates : List Coord) : Geometry
deriving DecidableEq

/-- Result of the coordinate-system heuristic. -/
inductive CoordSys where
  | utm
  | geographic
deriving DecidableEq

/-- `detectCoordinateSystem` (route.ts lines 994-1007): look only at the first
coordinate pair; classify as UTM when either component's absolute value
exceeds 1000.  The JS guard `!firstCoord || firstCoord.length < 2` returns
`'geographic'` when the sampled list is empty (which is also what
`extractCoordPairs` hands it for an empty ring: a single length-0 entry). -/
def detectCoordinateSystem (coords : List Coord) : CoordSys :=
  match coords with
  | [] => .geographic
  | (x, y) :: _ => if |x| > 1000 ∨ |y| > 1000 then .utm else .geographic

/-- `convertUTMToGeographic` (route.ts lines 1051-1066), applied to one ring:
fixed central meridian 99, false easting 500000, scale factor 0.9996,
meters-per-degree 111319.9. -/
def convertUTMToGeographic (coords : List Coord) : List Coord :=
  coords.map (fun c =>
    let centralMeridian : ℚ := 99
    let falseEasting : ℚ := 500000
    let scaleFactor : ℚ := 0.9996
    let x := c.1 - falseEasting
    let longitude := centralMeridian + x / (scaleFactor * 111319.9)
    let latitude := c.2 / 111319.9
    (longitude, latitude))

set_option linter.unusedVariables false

/-- `normalizeGeometry` (route.ts lines 988-1091).  The unused second
parameter is the `.prj` projection info, which the source accepts and never
reads.  `none` models the `TypeError` thrown when the first ring of a Polygon
(`coordinates[0]`) or the first ring of the first polygon of a MultiPolygon
(`coordinates[0][0]`) is `undefined`: `extractCoordPairs` then evaluates
`undefined[0]`.  For a nonempty first ring, `extractCoordPairs` returns the
ring itself; for an empty one it returns `[ring]`, which
`detectCoordinateSystem` classifies as geographic via its length guard —
`detectCoordinateSystem` applied to the ring directly agrees in both cases. -/
def normalizeGeometry (geometry : Geometry) (projectionInfo : Option String) : Option Geometry :=
  match geometry with
  | .null => some .null
  | .noCoords t => some (.noCoords t)
  | .other t cs => some (.other t cs)
  | .polygon ps =>
    match ps with
    | [] => none
    | r :: _ =>
      match detectCoordinateSystem r with
      | .geographic => some (.multiPolygon [ps])
      | .utm => some (.multiPolygon [ps.map convertUTMToGeographic])
  | .multiPolygon ms =>
    match ms with
    | [] => none
    | [] :: _ => none
    | (r :: _) :: _ =>
      match detectCoordinateSystem r with
      | .geographic => some (.multiPolygon ms)
      | .utm => some (.multiPolygon (ms.map (fun polygon => polygon.map convertUTMToGeographic)))

/-! ## GeoJSON Batch Processor and Shapefile Extractor

`processGeoJSON` (route.ts lines 1186-1224) and the per-feature loop of
`processShapefile` (lines 1145-1175) share the same body up to the
`projectionInfo` argument passed to `normalizeGeometry`, so both are embedded
through one indexed loop.  `Date.now()` is passed in as the `timestamp`
parameter. -/

/-- A GeoJSON feature (`properties` may be absent/null — JS falsy — in which
case the code substitutes `{}`). -/
structure Feature where
  properties : Option (List (String × JsVal))
  geometry : Geometry
deriving DecidableEq

/-- A per-feature error entry `{index, message, feature}`; the interpolated
message text carries no additional information and is elided. -/
structure ImportError where
  index : Nat
  feature : Feature
deriving DecidableEq

/-- A processed record.  The JS object literal
`{parcel_id, ...properties, geometry: ..., status: ...}` is modelled by the
merged key-value list `props` plus the normalized geometry held out-of-band
(the object's `geometry` key always ends up holding exactly the normalized
geometry, so it is represented by the separate field and filtered from
`props`). -/
structure CadastralRecord where
  props : List (String × JsVal)
  geometry : Geometry
deriving DecidableEq

/-- The `parcel_id` field of a record. -/
def CadastralRecord.parcelId (r : CadastralRecord) : JsVal :=
  (r.props.lookup "parcel_id").getD .null

/-- Batch result `{success, errors}`. -/
structure ProcessResult where
  success : List CadastralRecord
  errors : List ImportError
deriving DecidableEq

/-- The loop body shared by `processGeoJSON` and `processShapefile`: map the
field names, pick `parcel_id` (first truthy of `properties.parcel_id`,
`properties.nib`, `properties.hak`, else `PARCEL_<timestamp>_<index>`),
normalize the geometry, and build the record object.  `none` is a thrown
per-feature exception (the only throwing step on this path is
`normalizeGeometry`). -/
def featureToRecord (timestamp i : Nat) (projectionInfo : Option String)
    (feature : Feature) : Option CadastralRecord :=
  let properties := mapFieldNames (feature.properties.getD [])
  let parcel_id :=
    jsOr ((properties.lookup "parcel_id").getD .null)
      (jsOr ((properties.lookup "nib").getD .null)
        (jsOr ((properties.lookup "hak").getD .null)
          (.str ("PARCEL_" ++ toString timestamp ++ "_" ++ toString i))))
  match normalizeGeometry feature.geometry projectionInfo with
  | none => none
  | some ng =>
    let spread := properties.foldl (fun acc kv => jsSet acc kv.1 kv.2) [("parcel_id", parcel_id)]
    let withStatus :=
      jsSet spread "status" (jsOr ((properties.lookup "status").getD .null) (.str "active"))
    some { props := withStatus.filter (fun kv => kv.1 ≠ "geometry"), geometry := ng }

/-- The indexed per-feature loop: a successful feature is appended to
`success`, a throwing one to `errors`, and the loop always continues. -/
def processFeaturesFrom (timestamp : Nat) (projectionInfo : Option String) :
    Nat → List Feature → ProcessResult
  | _, [] => { success := [], errors := [] }
  | i, f :: rest =>
    let tail := processFeaturesFrom timestamp projectionInfo (i + 1) rest
    match featureToRecord timestamp i projectionInfo f with
    | some r => { success := r :: tail.success, errors := tail.errors }
    | none => { success := tail.success, errors := { index := i, feature := f } :: tail.errors }

/-- `processGeoJSON` (route.ts lines 1186-1224) on a FeatureCollection's
feature list (a bare Feature is the one-element list, per
`geoJson.features || [geoJson]`). -/
def processGeoJSON (timestamp : Nat) (features : List Feature) : ProcessResult :=
  processFeaturesFrom timestamp none 0 features

/-- A ZIP member: name and raw bytes. -/
structure ZipEntry where
  entryName : String
  data : List Nat
deriving DecidableEq

/-- Model of `String.prototype.endsWith` (JS) / suffix test. -/
def strEndsWith (s suffix : String) : Bool :=
  suffix.data.isSuffixOf s.data

/-- `processShapefile` (route.ts lines 1093-1184).  The external
`shapefile.read` decoder and the `Buffer.toString('utf8')` decoding of the
`.prj` member are opaque collaborators, passed in as functions.  Member lookup
is by case-insensitive extension, exactly as
`entry.entryName.toLowerCase().endsWith('.shp')` does; a missing `.shp` or
`.dbf` throws before any feature is processed, modelled as `.error` with the
thrown message. -/
def processShapefile (shapefileRead : List Nat → List Nat → List Feature)
    (timestamp : Nat) (entries : List ZipEntry) (prjDecode : List Nat → String) :
    Except String ProcessResult :=
  match entries.find? (fun e => strEndsWith (toLowerAscii e.entryName) ".shp") with
  | none => .error "No .shp file found in ZIP archive"
  | some shpEntry =>
    match entries.find? (fun e => strEndsWith (toLowerAscii e.entryName) ".dbf") with
    | none => .error "No .dbf file found in ZIP archive"
    | some dbfEntry =>
      let prjEntry := entries.find? (fun e => strEndsWith (toLowerAscii e.entryName) ".prj")
      let projectionInfo : Option String := prjEntry.map (fun e => prjDecode e.data)
      let features := shapefileRead shpEntry.data dbfEntry.data
      .ok (processFeaturesFrom timestamp projectionInfo 0 features)

/-! ## Per-record persistence loop

The insert loop of the `POST` handler (route.ts lines 1284-1359): for each
record, call the `insert_parcel_with_geometry` RPC; if it returns an error,
call `insert_parcel_with_geometry_simple`; if that also errors, push an entry
onto `insertErrors`; otherwise count the record as imported.  The Supabase
RPCs are opaque collaborators returning `some message` on error, passed in as
functions; the loop `await`s each call and always continues to the next
record. -/

/-- One RPC invocation, for the call trace. -/
inductive RpcCall where
  | primary (parcel_id : JsVal)
  | simple (parcel_id : JsVal)
deriving DecidableEq

/-- Outcome of the insert loop: the `imported` counter, the `insertErrors`
list (parcel id and error message), and the ordered trace of RPC calls
issued. -/
structure InsertOutcome where
  imported : Nat
  insertErrors : List (JsVal × String)
  calls : List RpcCall
deriving DecidableEq

/-- The insert loop itself. -/
def insertRecords (rpcInsert rpcInsertSimple : CadastralRecord → Option String) :
    List CadastralRecord → InsertOutcome
  | [] => { imported := 0, insertErrors := [], calls := [] }
  | r :: rest =>
    let tail := insertRecords rpcInsert rpcInsertSimple rest
    match rpcInsert r with
    | none =>
      { imported := tail.imported + 1, insertErrors := tail.insertErrors,
        calls := .primary r.parcelId :: tail.calls }
    | some _ =>
      match rpcInsertSimple r with
      | none =>
        { imported := tail.imported + 1, insertErrors := tail.insertErrors,
          calls := .primary r.parcelId :: .simple r.parcelId :: tail.calls }
      | some msg =>
        { imported := tail.imported, insertErrors := (r.parcelId, msg) :: tail.insertErrors,
          calls := .primary r.parcelId :: .simple r.parcelId :: tail.calls }

/-! ## Support predicates and helper lemmas -/

/-- Does the geometry contain at least one ring with at least one coordinate
pair (the claim C1 precondition)? -/
def Geometry.hasNonemptyRing : Geometry → Bool
  | .polygon ps => ps.any (fun r => !r.isEmpty)
  | .multiPolygon ms => ms.any (fun p => p.any (fun r => !r.isEmpty))
  | _ => false

/-- Does the first polygon (the polygon itself for `Polygon`, the first member
for `MultiPolygon`) contain at least one ring?  Exactly when this fails, the
code indexes into `undefined` and throws. -/
def Geometry.firstPolyHasRing : Geometry → Bool
  | .polygon ps => !ps.isEmpty
  | .multiPolygon (p :: _) => !p.isEmpty
  | _ => false

/-- The UTM→geographic point transformation exactly as the spec/claim words
it: `[99 + (easting - 500000) / (0.9996 * 111319.9), northing / 111319.9]`. -/
def specUtmApprox (c : Coord) : Coord :=
  (99 + (c.1 - 500000) / (0.9996 * 111319.9), c.2 / 111319.9)

/-- The code's ring conversion is exactly the pointwise claim formula. -/
theorem convertUTM_funeq : convertUTMToGeographic = List.map specUtmApprox :=
  funext (fun _ => rfl)

/-! ### Claim theorems: geometry -/

/-- **C1** (amended).  For every Polygon with at least one ring containing a
coordinate pair, and every MultiPolygon additionally having a nonempty first
polygon, `normalizeGeometry` returns a `MultiPolygon` in both the geographic
and the projected branch: a bare Polygon is wrapped into a single-member
MultiPolygon and a MultiPolygon keeps its type and member count.  (As stated
originally the claim fails: a MultiPolygon whose first member is an empty
polygon makes the code throw, see the counterexample.) -/
theorem normalizeGeometry_multiPolygon_amended (g : Geometry) (pi : Option String)
    (h₁ : g.hasNonemptyRing = true) (h₂ : g.firstPolyHasRing = true) :
    ∃ cs, normalizeGeometry g pi = some (.multiPolygon cs)
      ∧ (∀ ps, g = .polygon ps → cs.length = 1)
      ∧ (∀ ms, g = .multiPolygon ms → cs.length = ms.length) := by
  cases g with
  | null => simp [Geometry.hasNonemptyRing] at h₁
  | noCoords t => simp [Geometry.hasNonemptyRing] at h₁
  | other t cs => simp [Geometry.hasNonemptyRing] at h₁
  | polygon ps =>
    cases ps with
    | nil => simp [Geometry.firstPolyHasRing] at h₂
    | cons r rs =>
      cases hd : detectCoordinateSystem r with
      | geographic =>
        exact ⟨[r :: rs], by simp [normalizeGeometry, hd], by simp, by simp⟩
      | utm =>
        exact ⟨[(r :: rs).map convertUTMToGeographic], by simp [normalizeGeometry, hd],
          by simp, by simp⟩
  | multiPolygon ms =>
    cases ms with
    | nil => simp [Geometry.firstPolyHasRing] at h₂
    | cons p ms' =>
      cases p with
      | nil => simp [Geometry.firstPolyHasRing] at h₂
      | cons r rs =>
        cases hd : detectCoordinateSystem r with
        | geographic =>
          exact ⟨(r :: rs) :: ms', by simp [normalizeGeometry, hd], by simp, by simp⟩
        | utm =>
          exact ⟨((r :: rs) :: ms').map (fun polygon => polygon.map convertUTMToGeographic),
            by simp [normalizeGeometry, hd], by simp, by simp⟩

/-- Witness for C1: a concrete Polygon and a concrete two-member MultiPolygon,
in both coordinate regimes. -/
theorem normalizeGeometry_multiPolygon_amended_witness :
    (∃ cs, normalizeGeometry (.polygon [[(98.6, 3.6)]]) none = some (.multiPolygon cs)
      ∧ (∀ ps, (Geometry.polygon [[(98.6, 3.6)]]) = .polygon ps → cs.length = 1)
      ∧ (∀ ms, (Geometry.polygon [[(98.6, 3.6)]]) = .multiPolygon ms → cs.length = ms.length))
    ∧ (∃ cs, normalizeGeometry (.multiPolygon [[[(450000, 500000)]], [[(1, 1)]]]) none
        = some (.multiPolygon cs)
      ∧ (∀ ps, (Geometry.multiPolygon [[[(450000, 500000)]], [[(1, 1)]]]) = .polygon ps →
          cs.length = 1)
      ∧ (∀ ms, (Geometry.multiPolygon [[[(450000, 500000)]], [[(1, 1)]]]) = .multiPolygon ms →
          cs.length = ms.length)) :=
  ⟨normalizeGeometry_multiPolygon_amended _ none (by decide) (by decide),
   normalizeGeometry_multiPolygon_amended _ none (by decide) (by decide)⟩

/-- Counterexample for C1 as stated: this MultiPolygon has a ring with a
coordinate pair (in its second polygon), yet the code throws (`undefined[0]`)
instead of returning a MultiPolygon, because the first polygon is empty. -/
theorem normalizeGeometry_multiPolygon_counterexample :
    (Geometry.multiPolygon [[], [[(0, 0), (1, 0), (1, 1), (0, 0)]]]).hasNonemptyRing = true
    ∧ normalizeGeometry (.multiPolygon [[], [[(0, 0), (1, 0), (1, 1), (0, 0)]]]) none = none := by
  decide

/-- **C4** (confirmed).  Coordinate-system detection looks only at the first
coordinate pair (of the first ring of the first polygon) and classifies as
projected (UTM) exactly when either component's absolute value exceeds 1000;
`[98.6, 3.6]` is geographic and `[450000, 500000]` is projected; inside
`normalizeGeometry` the branch taken depends only on the detection of the
first ring, for Polygon and MultiPolygon alike. -/
theorem detectCoordinateSystem_first_pair_spec :
    (∀ (x y : ℚ) (rest : List Coord),
      detectCoordinateSystem ((x, y) :: rest) = .utm ↔ (1000 < |x| ∨ 1000 < |y|))
    ∧ (∀ (c : Coord) (r₁ r₂ : List Coord),
      detectCoordinateSystem (c :: r₁) = detectCoordinateSystem (c :: r₂))
    ∧ detectCoordinateSystem [(98.6, 3.6)] = .geographic
    ∧ detectCoordinateSystem [(450000, 500000)] = .utm
    ∧ (∀ (pi : Option String) (r : Ring) (rs : List Ring),
      detectCoordinateSystem r = .geographic →
        normalizeGeometry (.polygon (r :: rs)) pi = some (.multiPolygon [r :: rs]))
    ∧ (∀ (pi : Option String) (r : Ring) (rs : List Ring) (ms : List (List Ring)),
      detectCoordinateSystem r = .geographic →
        normalizeGeometry (.multiPolygon ((r :: rs) :: ms)) pi
          = some (.multiPolygon ((r :: rs) :: ms))) := by
  refine ⟨?_, ?_, by decide, by decide, ?_, ?_⟩
  · intro x y rest
    by_cases h : 1000 < |x| ∨ 1000 < |y| <;> simp [detectCoordinateSystem, h]
  · intro c r₁ r₂
    cases c
    simp [detectCoordinateSystem]
  · intro pi r rs h
    simp [normalizeGeometry, h]
  · intro pi r rs ms h
    simp [normalizeGeometry, h]

/-- Witness for C4: the boundary facts at the concrete sample pairs. -/
theorem detectCoordinateSystem_first_pair_spec_witness :
    (detectCoordinateSystem [((98.6 : ℚ), (3.6 : ℚ))] = .utm ↔ (1000 < |(98.6 : ℚ)| ∨ 1000 < |(3.6 : ℚ)|))
    ∧ normalizeGeometry (.polygon [[(98.6, 3.6)], [(7, 7)]]) none
        = some (.multiPolygon [[[(98.6, 3.6)], [(7, 7)]]]) :=
  ⟨detectCoordinateSystem_first_pair_spec.1 98.6 3.6 [],
   detectCoordinateSystem_first_pair_spec.2.2.2.2.1 none [(98.6, 3.6)] [[(7, 7)]] (by decide)⟩

/-- **C5** (confirmed).  When a geometry is classified as projected, every
coordinate pair of every ring of every polygon is independently replaced by
`[99 + (easting - 500000) / (0.9996 * 111319.9), northing / 111319.9]` and
nothing else is changed: the output coordinates are exactly the elementwise
map of that fixed formula. -/
theorem normalizeGeometry_utm_formula (pi : Option String) (r : Ring) (rs : List Ring)
    (ms : List (List Ring)) (h : detectCoordinateSystem r = .utm) :
    (∀ c : Coord, specUtmApprox c = (99 + (c.1 - 500000) / (0.9996 * 111319.9), c.2 / 111319.9))
    ∧ normalizeGeometry (.polygon (r :: rs)) pi
        = some (.multiPolygon [(r :: rs).map (List.map specUtmApprox)])
    ∧ normalizeGeometry (.multiPolygon ((r :: rs) :: ms)) pi
        = some (.multiPolygon (((r :: rs) :: ms).map (fun polygon => polygon.map (List.map specUtmApprox)))) := by
  refine ⟨fun c => rfl, ?_, ?_⟩ <;> simp [normalizeGeometry, h, convertUTM_funeq]

/-- Witness for C5 at a concrete projected polygon. -/
theorem normalizeGeometry_utm_formula_witness :
    normalizeGeometry (.polygon [[(450000, 500000)]]) none
      = some (.multiPolygon [[[(450000, 500000)]].map (List.map specUtmApprox)]) :=
  (normalizeGeometry_utm_formula none [(450000, 500000)] [] [] (by decide)).2.1

/-- **C10** (confirmed).  `normalizeGeometry` is the identity on a
null/undefined geometry and on a geometry without a (truthy) `coordinates`
field, and a feature with such a geometry still yields a record with its
geometry left as-is, not an error entry. -/
theorem normalizeGeometry_degenerate_spec :
    ∀ (t : String) (pi : Option String) (props : Option (List (String × JsVal))) (ts : Nat),
    normalizeGeometry .null pi = some .null
    ∧ normalizeGeometry (.noCoords t) pi = some (.noCoords t)
    ∧ (processGeoJSON ts [⟨props, .null⟩]).errors = []
    ∧ (processGeoJSON ts [⟨props, .null⟩]).success.map (fun r => r.geometry) = [.null]
    ∧ (processGeoJSON ts [⟨props, .noCoords t⟩]).errors = []
    ∧ (processGeoJSON ts [⟨props, .noCoords t⟩]).success.map (fun r => r.geometry)
        = [.noCoords t] := by
  intro t pi props ts
  refine ⟨rfl, rfl, ?_, ?_, ?_, ?_⟩ <;>
    simp [processGeoJSON, processFeaturesFrom, featureToRecord, normalizeGeometry]

/-! ### Claim theorems: batch processing -/

/-- When every feature's geometry normalizes without throwing, the batch loop
produces no error entry and one record per feature, in order. -/
theorem processFeaturesFrom_all_ok :
    ∀ (fs : List Feature) (ts : Nat) (pi : Option String) (i : Nat),
    (∀ f ∈ fs, (normalizeGeometry f.geometry pi).isSome = true) →
    (processFeaturesFrom ts pi i fs).errors = []
    ∧ (processFeaturesFrom ts pi i fs).success.length = fs.length
    ∧ ∀ j, (processFeaturesFrom ts pi i fs).success[j]?
        = fs[j]?.bind (fun fj => featureToRecord ts (i + j) pi fj)
  | [], ts, pi, i, _ => ⟨rfl, rfl, fun j => by simp [processFeaturesFrom]⟩
  | f :: rest, ts, pi, i, h => by
    obtain ⟨ng, hng⟩ := Option.isSome_iff_exists.mp (h f (List.mem_cons_self f rest))
    obtain ⟨rec, hrec⟩ : ∃ rec, featureToRecord ts i pi f = some rec := by
      simp only [featureToRecord, hng]
      exact ⟨_, rfl⟩
    obtain ⟨ihe, ihl, ihj⟩ :=
      processFeaturesFrom_all_ok rest ts pi (i + 1) (fun g hg => h g (List.mem_cons_of_mem f hg))
    refine ⟨?_, ?_, ?_⟩
    · simp [processFeaturesFrom, hrec, ihe]
    · simp [processFeaturesFrom, hrec, ihl]
    · intro j
      cases j with
      | zero => simp [processFeaturesFrom, hrec]
      | succ j' =>
        have := ihj j'
        simp only [processFeaturesFrom, hrec]
        simpa [Nat.add_assoc, Nat.add_comm 1 j'] using this

/-- **C3** (amended).  A feature whose geometry has the unsupported type
`"LineString"` is *not* rejected: `normalizeGeometry` passes other geometry
types through unchanged, so for a FeatureCollection of N features in which
feature k is a LineString and all features normalize, `processGeoJSON`
returns N records and no error entry, the record for feature k keeps its
LineString geometry verbatim, and no exception escapes the batch call.  (The
original claim — N-1 records and one error entry for index k — is refuted by
the counterexample.) -/
theorem processGeoJSON_lineString_amended (ts : Nat) (features : List Feature) (k : Nat)
    (f : Feature) (lineCoords : List Coord)
    (hk : features[k]? = some f)
    (hline : f.geometry = .other "LineString" lineCoords)
    (hwf : ∀ g ∈ features, (normalizeGeometry g.geometry none).isSome = true) :
    (processGeoJSON ts features).success.length = features.length
    ∧ (processGeoJSON ts features).errors = []
    ∧ ((processGeoJSON ts features).success[k]?.map (fun r => r.geometry))
        = some (.other "LineString" lineCoords) := by
  obtain ⟨he, hl, hj⟩ := processFeaturesFrom_all_ok features ts none 0 hwf
  refine ⟨hl, he, ?_⟩
  have hk' := hj k
  rw [hk] at hk'
  rw [show processGeoJSON ts features = processFeaturesFrom ts none 0 features from rfl, hk']
  simp [featureToRecord, hline, normalizeGeometry]

/-- Witness for C3: a two-feature collection with the LineString at index 1.  -/
theorem processGeoJSON_lineString_amended_witness :
    (processGeoJSON 0 [⟨none, .polygon [[(98.6, 3.6)]]⟩,
        ⟨none, .other "LineString" [(0, 0), (1, 1)]⟩]).success.length
      = [(⟨none, .polygon [[(98.6, 3.6)]]⟩ : Feature),
        ⟨none, .other "LineString" [(0, 0), (1, 1)]⟩].length
    ∧ (processGeoJSON 0 [⟨none, .polygon [[(98.6, 3.6)]]⟩,
        ⟨none, .other "LineString" [(0, 0), (1, 1)]⟩]).errors = []
    ∧ ((processGeoJSON 0 [⟨none, .polygon [[(98.6, 3.6)]]⟩,
        ⟨none, .other "LineString" [(0, 0), (1, 1)]⟩]).success[1]?.map (fun r => r.geometry))
        = some (.other "LineString" [(0, 0), (1, 1)]) :=
  processGeoJSON_lineString_amended 0
    [⟨none, .polygon [[(98.6, 3.6)]]⟩, ⟨none, .other "LineString" [(0, 0), (1, 1)]⟩] 1
    ⟨none, .other "LineString" [(0, 0), (1, 1)]⟩ [(0, 0), (1, 1)]
    (by decide) (by decide) (by decide)

/-- Counterexample for C3 as stated: with N = 2 and the LineString at index
k = 1, the processor returns 2 records and 0 errors, not 1 record and 1 error
entry referencing index 1. -/
theorem processGeoJSON_lineString_counterexample :
    (processGeoJSON 0 [⟨none, .polygon [[(98.6, 3.6)]]⟩,
        ⟨none, .other "LineString" [(0, 0)]⟩]).success.length = 2
    ∧ (processGeoJSON 0 [⟨none, .polygon [[(98.6, 3.6)]]⟩,
        ⟨none, .other "LineString" [(0, 0)]⟩]).errors = []
    ∧ ¬ ((processGeoJSON 0 [⟨none, .polygon [[(98.6, 3.6)]]⟩,
          ⟨none, .other "LineString" [(0, 0)]⟩]).success.length = 1
        ∧ (processGeoJSON 0 [⟨none, .polygon [[(98.6, 3.6)]]⟩,
          ⟨none, .other "LineString" [(0, 0)]⟩]).errors.length = 1) := by
  decide

/-- The batch loop's outcome does not depend on the `.prj` projection info. -/
theorem processFeaturesFrom_projectionInfo_irrelevant :
    ∀ (fs : List Feature) (ts : Nat) (p₁ p₂ : Option String) (i : Nat),
    processFeaturesFrom ts p₁ i fs = processFeaturesFrom ts p₂ i fs
  | [], _, _, _, _ => rfl
  | f :: rest, ts, p₁, p₂, i => by
    have ih := processFeaturesFrom_projectionInfo_irrelevant rest ts p₁ p₂ (i + 1)
    have hf : featureToRecord ts i p₁ f = featureToRecord ts i p₂ f := rfl
    simp only [processFeaturesFrom, ih, hf]

/-- **C8** (confirmed).  Shapefile extraction fails for the whole batch —
returning the archive error, producing no record — whenever the ZIP has no
member with (case-insensitively matched) extension `.shp`, or none with
`.dbf`; a `.prj` member is optional and its decoded contents are never
consulted: the result is independent of the `.prj` decoding, and
`normalizeGeometry` ignores its projection-info argument altogether. -/
theorem processShapefile_archive_spec (read : List Nat → List Nat → List Feature)
    (ts : Nat) (entries : List ZipEntry) (d₁ d₂ : List Nat → String) (shpE : ZipEntry) :
    ((∀ e ∈ entries, strEndsWith (toLowerAscii e.entryName) ".shp" = false) →
      processShapefile read ts entries d₁ = .error "No .shp file found in ZIP archive")
    ∧ ((entries.find? (fun e => strEndsWith (toLowerAscii e.entryName) ".shp") = some shpE) →
       (∀ e ∈ entries, strEndsWith (toLowerAscii e.entryName) ".dbf" = false) →
      processShapefile read ts entries d₁ = .error "No .dbf file found in ZIP archive")
    ∧ processShapefile read ts entries d₁ = processShapefile read ts entries d₂
    ∧ (∀ (g : Geometry) (p₁ p₂ : Option String), normalizeGeometry g p₁ = normalizeGeometry g p₂) := by
  refine ⟨?_, ?_, ?_, fun g p₁ p₂ => rfl⟩
  · intro h
    have : entries.find? (fun e => strEndsWith (toLowerAscii e.entryName) ".shp") = none := by
      rw [List.find?_eq_none]
      intro e he
      simp [h e he]
    simp [processShapefile, this]
  · intro hshp h
    have : entries.find? (fun e => strEndsWith (toLowerAscii e.entryName) ".dbf") = none := by
      rw [List.find?_eq_none]
      intro e he
      simp [h e he]
    simp [processShapefile, hshp, this]
  · unfold processShapefile
    cases h1 : entries.find? (fun e => strEndsWith (toLowerAscii e.entryName) ".shp") with
    | none => rfl
    | some e1 =>
      cases h2 : entries.find? (fun e => strEndsWith (toLowerAscii e.entryName) ".dbf") with
      | none => rfl
      | some e2 =>
        simp only [Except.ok.injEq]
        exact processFeaturesFrom_projectionInfo_irrelevant _ ts _ _ 0

/-- Witness for C8: a ZIP with no shapefile member is rejected with the
`.shp` error; one with only an (upper-cased) `.SHP` member is rejected with
the `.dbf` error — the extension match is case-insensitive. -/
theorem processShapefile_archive_spec_witness :
    processShapefile (fun _ _ => []) 0 [⟨"readme.txt", []⟩] (fun _ => "")
      = .error "No .shp file found in ZIP archive"
    ∧ processShapefile (fun _ _ => []) 0 [⟨"PARCELS.SHP", []⟩] (fun _ => "")
      = .error "No .dbf file found in ZIP archive" :=
  ⟨(processShapefile_archive_spec (fun _ _ => []) 0 [⟨"readme.txt", []⟩] (fun _ => "")
      (fun _ => "") ⟨"", []⟩).1 (by decide),
   (processShapefile_archive_spec (fun _ _ => []) 0 [⟨"PARCELS.SHP", []⟩] (fun _ => "")
      (fun _ => "") ⟨"PARCELS.SHP", []⟩).2.1 (by decide) (by decide)⟩

/-- **C9** (amended).  Per-record persistence is sequential and best-effort,
with no retry beyond the built-in fallback: every record triggers one call to
the primary insert RPC and — only when that call errors — exactly one further
call to the fallback "simple" RPC, so a record's insert is attempted at most
twice, not exactly once; a record failing both calls is recorded as a
terminal failure for that record only, and one record's rejection never
prevents the attempts for the remaining records: the call trace, the imported
count and the error list are each an independent pointwise function of the
record list. -/
theorem insertRecords_spec :
    ∀ (rpcInsert rpcInsertSimple : CadastralRecord → Option String)
      (rs : List CadastralRecord),
    (insertRecords rpcInsert rpcInsertSimple rs).calls
      = rs.flatMap (fun r => match rpcInsert r with
          | none => [RpcCall.primary r.parcelId]
          | some _ => [RpcCall.primary r.parcelId, RpcCall.simple r.parcelId])
    ∧ (insertRecords rpcInsert rpcInsertSimple rs).imported
      = (rs.filter (fun r => (rpcInsert r).isNone || (rpcInsertSimple r).isNone)).length
    ∧ (insertRecords rpcInsert rpcInsertSimple rs).insertErrors
      = rs.filterMap (fun r => match rpcInsert r, rpcInsertSimple r with
          | some _, some msg => some (r.parcelId, msg)
          | _, _ => none) := by
  intro p f rs
  induction rs with
  | nil => exact ⟨rfl, rfl, rfl⟩
  | cons r rest ih =>
    obtain ⟨ih1, ih2, ih3⟩ := ih
    cases hp : p r with
    | none => simp [insertRecords, hp, ih1, ih2, ih3]
    | some m1 =>
      cases hf : f r with
      | none => simp [insertRecords, hp, hf, ih1, ih2, ih3]
      | some m2 => simp [insertRecords, hp, hf, ih1, ih2, ih3]

/-- Counterexample for C9 as stated ("attempted exactly once"): with a
primary RPC that rejects and a fallback that accepts, a single record causes
two insert calls (primary then simple), and is nevertheless counted as
imported. -/
theorem insertRecords_counterexample :
    (insertRecords (fun _ => some "boom") (fun _ => none)
      [{ props := [("parcel_id", JsVal.str "P1")], geometry := .null }]).calls
      = [.primary (.str "P1"), .simple (.str "P1")]
    ∧ ¬ ((insertRecords (fun _ => some "boom") (fun _ => none)
      [{ props := [("parcel_id", JsVal.str "P1")], geometry := .null }]).calls.length = 1)
    ∧ (insertRecords (fun _ => some "boom") (fun _ => none)
      [{ props := [("parcel_id", JsVal.str "P1")], geometry := .null }]).imported = 1
    ∧ (insertRecords (fun _ => some "boom") (fun _ => none)
      [{ props := [("parcel_id", JsVal.str "P1")], geometry := .null }]).insertErrors = [] := by
  decide

/-! ### Claim theorems: field mapper -/

/-- A successful lookup pair is a member of the association list. -/
theorem mem_of_lookup_eq_some {l : List (String × JsVal)} {k : String} {v : JsVal}
    (h : l.lookup k = some v) : (k, v) ∈ l := by
  induction l with
  | nil => simp [List.lookup] at h
  | cons p rest ih =>
    obtain ⟨k1, v1⟩ := p
    rw [List.lookup] at h
    split at h
    · next heq =>
      obtain rfl : k = k1 := eq_of_beq heq
      obtain rfl : v1 = v := by injection h
      exact List.mem_cons_self _ _
    · exact List.mem_cons_of_mem _ (ih h)

/-- Every element of `jsSet o k v` is either the assigned pair or an element
of `o`. -/
theorem jsSet_mem {o : List (String × JsVal)} {k : String} {v : JsVal} {kv : String × JsVal}
    (h : kv ∈ jsSet o k v) : kv = (k, v) ∨ kv ∈ o := by
  unfold jsSet at h
  split at h
  · obtain ⟨a, ha, hfa⟩ := List.mem_map.mp h
    by_cases hk : a.1 = k
    · left; simp [hk] at hfa; exact hfa.symm
    · right; simp [hk] at hfa; exact hfa ▸ ha
  · rcases List.mem_append.mp h with hin | hone
    · exact .inr hin
    · exact .inl (by simpa using hone)

/-- The assignment step of `mapFieldNames`. -/
def mapStep (mapped : List (String × JsVal)) (kv : String × JsVal) : List (String × JsVal) :=
  jsSet mapped (resolveKey kv.1) (coerceValue (resolveKey kv.1) kv.2)

/-- `mapFieldNames` is the fold of `mapStep`. -/
theorem mapFieldNames_eq_foldl (props : List (String × JsVal)) :
    mapFieldNames props = props.foldl mapStep [] := rfl

/-- Every pair of the fold's output comes from the accumulator or is the
image of some input pair under key resolution and value coercion. -/
theorem foldl_mapStep_mem :
    ∀ (props acc : List (String × JsVal)) (kv : String × JsVal),
    kv ∈ props.foldl mapStep acc →
    kv ∈ acc ∨ ∃ p ∈ props, kv = (resolveKey p.1, coerceValue (resolveKey p.1) p.2)
  | [], _, _, h => .inl h
  | p :: rest, acc, kv, h => by
    rcases foldl_mapStep_mem rest (mapStep acc p) kv h with hacc | ⟨q, hq, hkv⟩
    · rcases jsSet_mem hacc with heq | hin
      · exact .inr ⟨p, List.mem_cons_self _ _, heq⟩
      · exact .inl hin
    · exact .inr ⟨q, List.mem_cons_of_mem _ hq, hkv⟩

/-- Every pair of the mapper's output is the image of an input pair. -/
theorem mapFieldNames_mem {props : List (String × JsVal)} {kv : String × JsVal}
    (h : kv ∈ mapFieldNames props) :
    ∃ p ∈ props, kv = (resolveKey p.1, coerceValue (resolveKey p.1) p.2) := by
  rcases foldl_mapStep_mem props [] kv (mapFieldNames_eq_foldl props ▸ h) with habs | hgood
  · simp at habs
  · exact hgood

/-- The area coercion as the (amended) claim words it: strip every character
that is not a digit, dot or minus, parse with `parseFloat`, and null out an
unparsable result. -/
def areaCoercionSpec (s : String) : JsVal :=
  match parseFloatJs (stripNonNumeric s) with
  | some q => .num q
  | none => .null

/-- **C2** (amended).  For any raw key resolving to an area field and any
string value, the mapped value is exactly strip-then-`parseFloat` (null when
unparsable); in particular `{LUASPETA: "1,487.5 m2"}` maps to 1487.52 — the
digit of the unit suffix `m2` survives the strip, so the claimed 1487.5 is
off — and `{LUASPETA: "-"}` maps to null. -/
theorem mapFieldNames_area_coercion_amended (k s : String)
    (hk : resolveKey k = "luas_peta" ∨ resolveKey k = "luas_tertulis") :
    (mapFieldNames [(k, .str s)]).lookup (resolveKey k) = some (areaCoercionSpec s)
    ∧ (mapFieldNames [("LUASPETA", .str "1,487.5 m2")]).lookup "luas_peta"
        = some (.num 1487.52)
    ∧ (mapFieldNames [("LUASPETA", .str "-")]).lookup "luas_peta" = some .null := by
  refine ⟨?_, by decide, by decide⟩
  have hone : mapFieldNames [(k, .str s)] = [(resolveKey k, coerceValue (resolveKey k) (.str s))] := by
    simp [mapFieldNames, jsSet]
  rw [hone]
  have hlook : ∀ w : JsVal, ([(resolveKey k, w)] : List (String × JsVal)).lookup (resolveKey k)
      = some w := by
    intro w
    simp [List.lookup]
  rw [hlook]
  rcases hk with h | h <;> rw [h] <;> by_cases hs : s = ""
  · subst hs; decide
  · simp only [coerceValue, coercePihak, coerceArea, coerceDate, cleanEmpty, dateFields,
      jsTruthy, areaCoercionSpec]
    simp [hs]
    cases hp : parseFloatJs (stripNonNumeric s) <;> simp [hp, JsVal.isLit, JsVal.isNull]
  · subst hs; decide
  · simp only [coerceValue, coercePihak, coerceArea, coerceDate, cleanEmpty, dateFields,
      jsTruthy, areaCoercionSpec]
    simp [hs]
    cases hp : parseFloatJs (stripNonNumeric s) <;> simp [hp, JsVal.isLit, JsVal.isNull]

/-- Witness for C2 at the claim's own example key and value. -/
theorem mapFieldNames_area_coercion_amended_witness :
    (mapFieldNames [("LUASPETA", .str "1,487.5 m2")]).lookup (resolveKey "LUASPETA")
      = some (areaCoercionSpec "1,487.5 m2") :=
  (mapFieldNames_area_coercion_amended "LUASPETA" "1,487.5 m2" (.inl (by decide))).1

/-- Counterexample for C2 as stated: the example value `"1,487.5 m2"` maps to
1487.52, not 1487.5, because the digit in `m2` survives the character
strip. -/
theorem mapFieldNames_area_coercion_counterexample :
    (mapFieldNames [("LUASPETA", JsVal.str "1,487.5 m2")]).lookup "luas_peta"
      = some (JsVal.num 1487.52)
    ∧ (JsVal.num 1487.52) ≠ (JsVal.num 1487.5)
    ∧ ¬ ((mapFieldNames [("LUASPETA", JsVal.str "1,487.5 m2")]).lookup "luas_peta"
      = some (JsVal.num 1487.5)) := by
  decide

/-- Case analysis of the dispute-parties coercion: the result is an array
except when the raw value is a string that `JSON.parse`s to a non-array. -/
theorem coerceValue_pihak_cases (w : JsVal) :
    (coerceValue "pihak_bersengketa" w).isArr = true
    ∨ ∃ s j, w = .str s ∧ jsonParse s = some j ∧ j.isArr = false := by
  cases w with
  | str s =>
    by_cases hs : s = "[]" ∨ s = "" ∨ s = "-"
    · left
      simp [coerceValue, coercePihak, coerceArea, coerceDate, cleanEmpty, dateFields, hs,
        JsVal.isArr, JsVal.isLit, JsVal.isNull]
    · cases hj : jsonParse s with
      | none =>
        left
        by_cases ht : jsTruthy (.str s) = true <;>
          simp [coerceValue, coercePihak, coerceArea, coerceDate, cleanEmpty, dateFields, hs,
            hj, ht, JsVal.isArr, JsVal.isLit, JsVal.isNull]
      | some j =>
        cases hja : j.isArr with
        | false => exact .inr ⟨s, j, rfl, hj, hja⟩
        | true =>
          left
          obtain ⟨a, rfl⟩ : ∃ a, j = .arr a := by
            cases j <;> simp_all [JsVal.isArr]
          simp [coerceValue, coercePihak, coerceArea, coerceDate, cleanEmpty, dateFields, hs,
            hj, JsVal.isArr, JsVal.isLit, JsVal.isNull]
  | null =>
    left
    simp [coerceValue, coercePihak, coerceArea, coerceDate, cleanEmpty, dateFields,
      JsVal.isArr, JsVal.isLit, JsVal.isNull]
  | num q =>
    left
    simp [coerceValue, coercePihak, coerceArea, coerceDate, cleanEmpty, dateFields,
      JsVal.isArr, JsVal.isLit, JsVal.isNull]
  | bool b =>
    left
    simp [coerceValue, coercePihak, coerceArea, coerceDate, cleanEmpty, dateFields,
      JsVal.isArr, JsVal.isLit, JsVal.isNull]
  | arr a =>
    left
    simp [coerceValue, coercePihak, coerceArea, coerceDate, cleanEmpty, dateFields,
      JsVal.isArr, JsVal.isLit, JsVal.isNull]
  | obj o =>
    left
    simp [coerceValue, coercePihak, coerceArea, coerceDate, cleanEmpty, dateFields,
      JsVal.isArr, JsVal.isLit, JsVal.isNull]

/-- **C6** (amended).  The mapped dispute-parties value is always an array —
`"[]"`, `""` and `"-"` map to `[]`, a string that fails `JSON.parse` maps to
the one-element array of the raw string, arrays pass through unchanged, and
any non-string non-array value maps to `[]` — *except* when the raw value is
a string that `JSON.parse` accepts with a non-array result, in which case the
parsed value (a number, string, boolean, object, or null) is emitted as-is,
so the field is not always an array as originally claimed. -/
theorem mapFieldNames_pihak_amended :
    (∀ (props : List (String × JsVal)) (v : JsVal),
      (mapFieldNames props).lookup "pihak_bersengketa" = some v →
      v.isArr = true ∨ ∃ k s j, (k, JsVal.str s) ∈ props
        ∧ resolveKey k = "pihak_bersengketa" ∧ jsonParse s = some j ∧ j.isArr = false)
    ∧ (mapFieldNames [("Pihak", .str "[]")]).lookup "pihak_bersengketa" = some (.arr [])
    ∧ (mapFieldNames [("Pihak", .str "[\"A\",\"B\"]")]).lookup "pihak_bersengketa"
        = some (.arr [.str "A", .str "B"])
    ∧ (mapFieldNames [("Pihak", .str "Ahmad")]).lookup "pihak_bersengketa"
        = some (.arr [.str "Ahmad"])
    ∧ (mapFieldNames [("Pihak", .arr [])]).lookup "pihak_bersengketa" = some (.arr [])
    ∧ (mapFieldNames [("Pihak", .num 7)]).lookup "pihak_bersengketa" = some (.arr [])
    ∧ (mapFieldNames [("Pihak", .str "-")]).lookup "pihak_bersengketa" = some (.arr []) := by
  refine ⟨?_, by decide, by decide, by decide, by decide, by decide, by decide⟩
  intro props v h
  obtain ⟨p, hp, heq⟩ := mapFieldNames_mem (mem_of_lookup_eq_some h)
  obtain ⟨hk, hv⟩ := Prod.mk.injEq .. ▸ heq
  rcases coerceValue_pihak_cases p.2 with harr | ⟨s, j, hw, hj, hja⟩
  · left
    rw [hv, ← hk]
    exact harr
  · right
    exact ⟨p.1, s, j, by rw [← hw]; exact hp, hk.symm, hj, hja⟩

/-- Witness for C6: a JSON-array string parses to an array. -/
theorem mapFieldNames_pihak_amended_witness :
    (JsVal.arr [.str "A"]).isArr = true
    ∨ ∃ k s j, (k, JsVal.str s) ∈ [("Pihak", JsVal.str "[\"A\"]")]
      ∧ resolveKey k = "pihak_bersengketa" ∧ jsonParse s = some j ∧ j.isArr = false :=
  mapFieldNames_pihak_amended.1 [("Pihak", JsVal.str "[\"A\"]")] (.arr [.str "A"]) (by decide)

/-- Counterexample for C6 as stated: the string `"5"` is JSON-parseable, so
the mapped dispute-parties value is the raw number 5 — not an array; the
string `"null"` likewise ends up as null. -/
theorem mapFieldNames_pihak_counterexample :
    (mapFieldNames [("PIHAK_BERSENGKETA", JsVal.str "5")]).lookup "pihak_bersengketa"
      = some (JsVal.num 5)
    ∧ (JsVal.num 5).isArr = false
    ∧ (mapFieldNames [("Pihak", JsVal.str "null")]).lookup "pihak_bersengketa"
      = some JsVal.null := by
  decide

/-! ### Idempotence machinery for C7 -/

/-- Assigning an absent key appends it. -/
theorem jsSet_of_lookup_none {o : List (String × JsVal)} {k : String} (v : JsVal)
    (h : o.lookup k = none) : jsSet o k v = o ++ [(k, v)] := by
  simp [jsSet, h]

/-- Overwriting an existing key leaves the key list unchanged. -/
theorem jsSet_map_fst_of_isSome {o : List (String × JsVal)} {k : String} (v : JsVal)
    (h : (o.lookup k).isSome) : (jsSet o k v).map Prod.fst = o.map Prod.fst := by
  simp only [jsSet, h, if_true, List.map_map]
  apply List.map_congr_left
  intro a _
  by_cases hk : a.1 = k <;> simp [hk]

/-- A lookup misses exactly the keys outside the key list. -/
theorem lookup_none_iff {l : List (String × JsVal)} {k : String} :
    l.lookup k = none ↔ k ∉ l.map Prod.fst := by
  induction l with
  | nil => simp
  | cons p rest ih =>
    obtain ⟨k1, v1⟩ := p
    by_cases h : k = k1
    · subst h
      simp [List.lookup_cons]
    · simp [List.lookup_cons, beq_eq_false_iff_ne.mpr h, ih, h]

/-- The fold of `mapStep` keeps the keys without duplicates. -/
theorem foldl_mapStep_nodup :
    ∀ (props acc : List (String × JsVal)),
    (acc.map Prod.fst).Nodup → ((props.foldl mapStep acc).map Prod.fst).Nodup
  | [], _, h => h
  | p :: rest, acc, h => by
    rw [List.foldl_cons]
    refine foldl_mapStep_nodup rest (mapStep acc p) ?_
    unfold mapStep
    by_cases hk : (acc.lookup (resolveKey p.1)).isSome
    · rw [jsSet_map_fst_of_isSome _ hk]; exact h
    · rw [jsSet_of_lookup_none _ (Option.not_isSome_iff_eq_none.mp hk), List.map_append]
      simp only [List.map_cons, List.map_nil, List.nodup_append]
      exact ⟨h, List.nodup_singleton _, by
        intro a ha hb
        simp at hb
        obtain rfl := hb
        exact (lookup_none_iff.mp (Option.not_isSome_iff_eq_none.mp hk)) ha⟩

/-- The keys of the mapper's output are distinct. -/
theorem mapFieldNames_nodup (props : List (String × JsVal)) :
    ((mapFieldNames props).map Prod.fst).Nodup :=
  foldl_mapStep_nodup props [] (by simp)

/-- Appending past a missing key. -/
theorem lookup_append_none {a b : List (String × JsVal)} {k : String}
    (ha : a.lookup k = none) : (a ++ b).lookup k = b.lookup k := by
  induction a with
  | nil => simp
  | cons p rest ih =>
    obtain ⟨k1, v1⟩ := p
    by_cases h : k = k1
    · subst h
      simp [List.lookup_cons] at ha
    · simp only [List.lookup_cons, beq_eq_false_iff_ne.mpr h, List.cons_append] at ha ⊢
      exact ih ha

/-- Folding `mapStep` over pairs that are already fixed (resolved keys and
coerced values) with fresh, duplicate-free keys just appends them. -/
theorem foldl_mapStep_fixed :
    ∀ (l acc : List (String × JsVal)),
    (∀ kv ∈ l, resolveKey kv.1 = kv.1 ∧ coerceValue kv.1 kv.2 = kv.2) →
    (∀ kv ∈ l, acc.lookup kv.1 = none) →
    (l.map Prod.fst).Nodup →
    l.foldl mapStep acc = acc ++ l
  | [], acc, _, _, _ => by simp
  | (k, v) :: rest, acc, hfix, hacc, hnd => by
    obtain ⟨hk, hv⟩ := hfix (k, v) (List.mem_cons_self _ _)
    simp only [List.map_cons, List.nodup_cons] at hnd
    obtain ⟨hknotin, hndrest⟩ := hnd
    have hstep : mapStep acc (k, v) = acc ++ [(k, v)] := by
      unfold mapStep
      simp only
      rw [hk, hv, jsSet_of_lookup_none _ (hacc (k, v) (List.mem_cons_self _ _))]
    rw [List.foldl_cons, hstep]
    have hrest := foldl_mapStep_fixed rest (acc ++ [(k, v)])
      (fun kv hkv => hfix kv (List.mem_cons_of_mem _ hkv))
      (fun kv hkv => by
        rw [lookup_append_none (hacc kv (List.mem_cons_of_mem _ hkv))]
        have hne : kv.1 ≠ k := by
          intro e
          exact hknotin (e ▸ List.mem_map_of_mem Prod.fst hkv)
        simp [List.lookup_cons, beq_eq_false_iff_ne.mpr hne])
      hndrest
    rw [hrest, List.append_assoc]
    rfl

/-- Is a raw dispute-parties value safe for idempotence?  (Everything except a
string that `JSON.parse`s to a non-array.) -/
def pihakValueOk : JsVal → Bool
  | .str s =>
    match jsonParse s with
    | some j => j.isArr
    | none => true
  | _ => true

/-- An ISO date string is not an empty string or a dash. -/
theorem isIsoDate_ne_sentinels {s : String} (h : isIsoDate s = true) :
    s ≠ "" ∧ s ≠ "-" := by
  constructor <;> intro e <;> subst e <;> exact absurd h (by decide)

/-- The clean-empty step is idempotent. -/
theorem cleanEmpty_idem (v : JsVal) : cleanEmpty (cleanEmpty v) = cleanEmpty v := by
  cases v with
  | str s =>
    by_cases h1 : s = ""
    · subst h1; decide
    · by_cases h2 : s = "-"
      · subst h2; decide
      · simp [cleanEmpty, JsVal.isLit, JsVal.isNull, h1, h2]
  | null => decide
  | num q => simp [cleanEmpty, JsVal.isLit, JsVal.isNull]
  | bool b => cases b <;> decide
  | arr a => simp [cleanEmpty, JsVal.isLit, JsVal.isNull]
  | obj o => simp [cleanEmpty, JsVal.isLit, JsVal.isNull]

/-- Idempotence of the per-key value pipeline, at resolved area keys. -/
theorem coerceValue_area_idem (k : String)
    (hk : k = "luas_tertulis" ∨ k = "luas_peta") (v : JsVal) :
    coerceValue k (coerceValue k v) = coerceValue k v := by
  rcases hk with rfl | rfl <;>
  · cases v with
    | str s =>
      by_cases hs : s = ""
      · subst hs; decide
      · have htr : jsTruthy (.str s) = true := by simp [jsTruthy, hs]
        cases hq : parseFloatJs (stripNonNumeric s) with
        | some q =>
          have h1 : ∀ kk : String, kk = "luas_tertulis" ∨ kk = "luas_peta" →
              coerceValue kk (.str s) = .num q := by
            intro kk hkk
            rcases hkk with rfl | rfl <;>
              simp [coerceValue, coercePihak, coerceArea, coerceDate, cleanEmpty, dateFields,
                htr, hq, JsVal.isLit, JsVal.isNull]
          rw [h1 _ (by simp)]
          by_cases hq0 : jsTruthy (.num q) = true <;>
            simp [coerceValue, coercePihak, coerceArea, coerceDate, cleanEmpty, dateFields,
              hq0, JsVal.isLit, JsVal.isNull]
        | none =>
          have h1 : ∀ kk : String, kk = "luas_tertulis" ∨ kk = "luas_peta" →
              coerceValue kk (.str s) = .null := by
            intro kk hkk
            rcases hkk with rfl | rfl <;>
              simp [coerceValue, coercePihak, coerceArea, coerceDate, cleanEmpty, dateFields,
                htr, hq, JsVal.isLit, JsVal.isNull]
          rw [h1 _ (by simp)]
          decide
    | null => decide
    | num q =>
      by_cases hq0 : jsTruthy (.num q) = true <;>
        simp [coerceValue, coercePihak, coerceArea, coerceDate, cleanEmpty, dateFields, hq0,
          JsVal.isLit, JsVal.isNull]
    | bool b => cases b <;> decide
    | arr a =>
      simp [coerceValue, coercePihak, coerceArea, coerceDate, cleanEmpty, dateFields,
        JsVal.isLit, JsVal.isNull]
    | obj o =>
      simp [coerceValue, coercePihak, coerceArea, coerceDate, cleanEmpty, dateFields,
        JsVal.isLit, JsVal.isNull]

/-- Idempotence of the per-key value pipeline, at resolved date keys. -/
theorem coerceValue_date_idem (k : String) (hk : k ∈ dateFields) (v : JsVal) :
    coerceValue k (coerceValue k v) = coerceValue k v := by
  have hk' : k = "tanggal_sk" ∨ k = "tanggal_terbit_hak" ∨ k = "berakhir_hak" := by
    simpa [dateFields] using hk
  have hpk : ∀ w : JsVal, coercePihak k w = w := by
    rcases hk' with rfl | rfl | rfl <;> intro w <;> simp [coercePihak]
  have harea : ∀ w : JsVal, coerceArea k w = w := by
    rcases hk' with rfl | rfl | rfl <;> intro w <;> simp [coerceArea]
  have hcv : ∀ w : JsVal, coerceValue k w = cleanEmpty (coerceDate k w) := fun w => by
    simp [coerceValue, hpk, harea]
  rw [hcv, hcv]
  cases v with
  | str s =>
    by_cases hs0 : s = ""
    · subst hs0
      simp [coerceDate, cleanEmpty, jsTruthy, hk, JsVal.isLit, JsVal.isNull]
    · by_cases hsd : s = "-"
      · subst hsd
        simp [coerceDate, cleanEmpty, jsTruthy, hk, JsVal.isLit, JsVal.isNull]
      · have htr : jsTruthy (.str s) = true := by simp [jsTruthy, hs0]
        cases hiso : isIsoDate s with
        | true =>
          obtain ⟨hne1, hne2⟩ := isIsoDate_ne_sentinels hiso
          simp [coerceDate, cleanEmpty, jsDateToIso, htr, hk, hiso, hs0, hsd, hne1, hne2,
            JsVal.isLit, JsVal.isNull]
        | false =>
          simp [coerceDate, cleanEmpty, jsDateToIso, htr, hk, hiso, hs0, hsd,
            JsVal.isLit, JsVal.isNull]
  | null => simp [coerceDate, cleanEmpty, jsTruthy, hk, JsVal.isLit, JsVal.isNull]
  | num q =>
    by_cases hq0 : jsTruthy (.num q) = true <;>
      simp [coerceDate, cleanEmpty, jsDateToIso, hq0, hk, JsVal.isLit, JsVal.isNull]
  | bool b =>
    cases b <;>
      simp [coerceDate, cleanEmpty, jsDateToIso, jsTruthy, hk, JsVal.isLit, JsVal.isNull]
  | arr a => simp [coerceDate, cleanEmpty, jsDateToIso, jsTruthy, hk, JsVal.isLit, JsVal.isNull]
  | obj o => simp [coerceDate, cleanEmpty, jsDateToIso, jsTruthy, hk, JsVal.isLit, JsVal.isNull]

/-- Idempotence of the per-key value pipeline, for every key, under the
dispute-parties proviso. -/
theorem coerceValue_idem (k : String) (v : JsVal)
    (h : k = "pihak_bersengketa" → pihakValueOk v = true) :
    coerceValue k (coerceValue k v) = coerceValue k v := by
  by_cases hp : k = "pihak_bersengketa"
  · subst hp
    obtain ⟨a, ha⟩ : ∃ a, coerceValue "pihak_bersengketa" v = .arr a := by
      rcases coerceValue_pihak_cases v with harr | ⟨s, j, rfl, hj, hja⟩
      · cases hcv : coerceValue "pihak_bersengketa" v with
        | arr a => exact ⟨a, rfl⟩
        | null => rw [hcv] at harr; simp [JsVal.isArr] at harr
        | str s => rw [hcv] at harr; simp [JsVal.isArr] at harr
        | num q => rw [hcv] at harr; simp [JsVal.isArr] at harr
        | bool b => rw [hcv] at harr; simp [JsVal.isArr] at harr
        | obj o => rw [hcv] at harr; simp [JsVal.isArr] at harr
      · have := h rfl
        rw [pihakValueOk, hj] at this
        simp [hja] at this
    rw [ha]
    simp [coerceValue, coercePihak, coerceArea, coerceDate, cleanEmpty, dateFields,
      JsVal.isLit, JsVal.isNull]
  · by_cases hA : k = "luas_tertulis" ∨ k = "luas_peta"
    · exact coerceValue_area_idem k hA v
    · by_cases hD : k ∈ dateFields
      · exact coerceValue_date_idem k hD v
      · have hpk : ∀ w : JsVal, coercePihak k w = w := fun w => by simp [coercePihak, hp]
        have harea : ∀ w : JsVal, coerceArea k w = w := fun w => by simp [coerceArea, hA]
        have hdate : ∀ w : JsVal, coerceDate k w = w := fun w => by simp [coerceDate, hD]
        have hcv : ∀ w : JsVal, coerceValue k w = cleanEmpty w := fun w => by
          simp [coerceValue, hpk, harea, hdate]
        rw [hcv, hcv, cleanEmpty_idem]

/-- **C7** (amended).  Re-running the field mapper on its own output is a
no-op *provided* that (a) no input key's resolved name is itself remapped by
the table — which excludes keys resolving to the legacy lower-case aliases
`area_sqm`, `owner_name` and `land_use` — and (b) no dispute-parties value is
a string that `JSON.parse`s to a non-array.  Without (a) idempotence fails
(see the counterexample: `OWNER_NAME` resolves to `owner_name`, which the
table then remaps to `pemilik` on the second pass). -/
theorem mapFieldNames_idem_amended (props : List (String × JsVal))
    (hkeys : ∀ kv ∈ props, resolveKey (resolveKey kv.1) = resolveKey kv.1)
    (hpihak : ∀ kv ∈ props, resolveKey kv.1 = "pihak_bersengketa" →
      pihakValueOk kv.2 = true) :
    mapFieldNames (mapFieldNames props) = mapFieldNames props := by
  have hfix : ∀ kv ∈ mapFieldNames props,
      resolveKey kv.1 = kv.1 ∧ coerceValue kv.1 kv.2 = kv.2 := by
    intro kv hkv
    obtain ⟨p, hp, rfl⟩ := mapFieldNames_mem hkv
    exact ⟨hkeys p hp, coerceValue_idem _ _ (fun hpk => hpihak p hp hpk)⟩
  have := foldl_mapStep_fixed (mapFieldNames props) [] hfix (by simp [List.lookup])
    (mapFieldNames_nodup props)
  rw [mapFieldNames_eq_foldl (mapFieldNames props), this, List.nil_append]

/-- Witness for C7: a mixed canonical-dialect mapping with area, date,
dispute and plain fields is a fixed point after one application. -/
theorem mapFieldNames_idem_amended_witness :
    mapFieldNames (mapFieldNames
      [("LUASPETA", .str "2,500 m2"), ("PEMILIK", .str "Ahmad"),
       ("Pihak", .str "[\"A\",\"B\"]"), ("TANGGAL_SK", .str "2020-05-01"),
       ("KETERANGAN", .str "-"), ("Status", .str "active")])
      = mapFieldNames
      [("LUASPETA", .str "2,500 m2"), ("PEMILIK", .str "Ahmad"),
       ("Pihak", .str "[\"A\",\"B\"]"), ("TANGGAL_SK", .str "2020-05-01"),
       ("KETERANGAN", .str "-"), ("Status", .str "active")] :=
  mapFieldNames_idem_amended _ (by decide) (by decide)

/-- Counterexample for C7 as stated: `{OWNER_NAME: "Ahmad"}` maps to
`{owner_name: "Ahmad"}`, but a second pass sends `owner_name` through the
lookup table to `pemilik`, so the mapper is not idempotent on all inputs. -/
theorem mapFieldNames_idem_counterexample :
    mapFieldNames (mapFieldNames [("OWNER_NAME", JsVal.str "Ahmad")])
      ≠ mapFieldNames [("OWNER_NAME", JsVal.str "Ahmad")]
    ∧ mapFieldNames [("OWNER_NAME", JsVal.str "Ahmad")] = [("owner_name", JsVal.str "Ahmad")]
    ∧ mapFieldNames (mapFieldNames [("OWNER_NAME", JsVal.str "Ahmad")])
      = [("pemilik", JsVal.str "Ahmad")] := by
  decide

end Cadastral
